import Mathlib

/-!
Shallow embedding of the snapd feature-tagging utilities
(`tests/utils/features/`): the feature extractor (`featextractor.py`),
the state resolver (`state.py`), the feature composer (`featcomposer.py`)
and the query engine (`query_features.py`), together with theorems about
the claims of the specification.

Python values decoded from JSON are modelled by `JVal`; Python dicts are
modelled by insertion-ordered association lists; `defaultdict(list)`
reads that materialize a missing key are modelled explicitly; Python
exceptions are modelled by `Except PyErr`.
-/

set_option maxHeartbeats 1600000

namespace Snapd

/-- A JSON value as produced by `json.loads` (numbers restricted to
integers; none of the data handled by the utilities uses fractions). -/
inductive JVal where
  | null : JVal
  | bool : Bool → JVal
  | num : Int → JVal
  | str : String → JVal
  | arr : List JVal → JVal
  | obj : List (String × JVal) → JVal
deriving Repr

mutual

/-- Structural equality of JSON values (Python `==`). -/
def JVal.beq : JVal → JVal → Bool
  | .null, .null => true
  | .bool a, .bool b => a == b
  | .num a, .num b => a == b
  | .str a, .str b => a == b
  | .arr a, .arr b => JVal.beqList a b
  | .obj a, .obj b => JVal.beqObj a b
  | _, _ => false

def JVal.beqList : List JVal → List JVal → Bool
  | [], [] => true
  | x :: xs, y :: ys => JVal.beq x y && JVal.beqList xs ys
  | _, _ => false

def JVal.beqObj : List (String × JVal) → List (String × JVal) → Bool
  | [], [] => true
  | (k, x) :: xs, (k', y) :: ys => k == k' && JVal.beq x y && JVal.beqObj xs ys
  | _, _ => false

end

theorem JVal.eq_of_beq : ∀ (a b : JVal), JVal.beq a b = true → a = b := fun a =>
  @JVal.rec (fun a => ∀ b, JVal.beq a b = true → a = b)
    (fun l => ∀ l', JVal.beqList l l' = true → l = l')
    (fun l => ∀ l', JVal.beqObj l l' = true → l = l')
    (fun p => ∀ q : String × JVal, (p.1 == q.1 && JVal.beq p.2 q.2) = true → p = q)
    (fun b h => by cases b <;> simp_all [JVal.beq])
    (fun x b h => by cases b <;> simp_all [JVal.beq])
    (fun x b h => by cases b <;> simp_all [JVal.beq])
    (fun x b h => by cases b <;> simp_all [JVal.beq])
    (fun l ih b h => by
      cases b <;> simp_all [JVal.beq]
      exact ih _ h)
    (fun l ih b h => by
      cases b <;> simp_all [JVal.beq]
      exact ih _ h)
    (fun l' h => by cases l' <;> simp_all [JVal.beqList])
    (fun x xs ihx ihxs l' h => by
      cases l' with
      | nil => simp_all [JVal.beqList]
      | cons y ys =>
        simp only [JVal.beqList, Bool.and_eq_true] at h
        rw [ihx _ h.1, ihxs _ h.2])
    (fun l' h => by cases l' <;> simp_all [JVal.beqObj])
    (fun p ps ihp ihps l' h => by
      cases l' with
      | nil => cases p; simp_all [JVal.beqObj]
      | cons q qs =>
        cases p with
        | mk k x =>
          cases q with
          | mk k' y =>
            simp only [JVal.beqObj, Bool.and_eq_true] at h
            have h1 := ihp (k', y) (by simp [h.1.1, h.1.2])
            rw [h1, ihps _ h.2])
    (fun k x ih q h => by
      cases q with
      | mk k' y =>
        simp only [Bool.and_eq_true, beq_iff_eq] at h
        rw [h.1, ih _ h.2])
    a

theorem JVal.beq_refl : ∀ (a : JVal), JVal.beq a a = true := fun a =>
  @JVal.rec (fun a => JVal.beq a a = true)
    (fun l => JVal.beqList l l = true)
    (fun l => JVal.beqObj l l = true)
    (fun p => (p.1 == p.1 && JVal.beq p.2 p.2) = true)
    rfl
    (fun x => by simp [JVal.beq])
    (fun x => by simp [JVal.beq])
    (fun x => by simp [JVal.beq])
    (fun l ih => by simpa [JVal.beq] using ih)
    (fun l ih => by simpa [JVal.beq] using ih)
    rfl
    (fun x xs ihx ihxs => by simp [JVal.beqList, ihx, ihxs])
    rfl
    (fun p ps ihp ihps => by cases p; simp_all [JVal.beqObj])
    (fun k x ih => by simp [ih])
    a

instance : DecidableEq JVal := fun a b =>
  if h : JVal.beq a b = true then isTrue (JVal.eq_of_beq a b h)
  else isFalse (fun he => h (he ▸ JVal.beq_refl a))

/-- Python exceptions raised by the embedded code. -/
inductive PyErr where
  | keyError
  | typeError
  | notInState
  | valueError
  | runtimeError
  | recursionError
deriving DecidableEq, Repr

instance {ε α : Type} [DecidableEq ε] [DecidableEq α] : DecidableEq (Except ε α) :=
  fun a b =>
    match a, b with
    | .ok x, .ok y =>
      if h : x = y then .isTrue (congrArg Except.ok h)
      else .isFalse (fun he => h (Except.ok.inj he))
    | .error x, .error y =>
      if h : x = y then .isTrue (congrArg Except.error h)
      else .isFalse (fun he => h (Except.error.inj he))
    | .ok _, .error _ => .isFalse (fun he => Except.noConfusion he)
    | .error _, .ok _ => .isFalse (fun he => Except.noConfusion he)

/-- Lookup of a string key in a JSON object body (first match, as in a
Python dict whose keys are unique). -/
def joLookup : List (String × JVal) → String → Option JVal
  | [], _ => none
  | (k', v) :: rest, k => if k' = k then some v else joLookup rest k

/-- `v[k]` for a string key, returning `none` when `v` is not an object
or the key is absent (the `except KeyError` paths of the source). -/
def jGetO (v : JVal) (k : String) : Option JVal :=
  match v with
  | .obj l => joLookup l k
  | _ => none

/-- `k in v` for an object (`_check_msg`-style membership). -/
def jHas (v : JVal) (k : String) : Bool :=
  (jGetO v k).isSome

/-- `_keys_in_dict(d, *args)` from `state.py`: checks that the keys are
nested one inside the other, the first key outermost. -/
def keysInDict (v : JVal) : List String → Bool
  | [] => true
  | k :: rest =>
    match jGetO v k with
    | some v' => keysInDict v' rest
    | none => false

/-- `v[k1][k2]...` along a path of string keys. -/
def jPath (v : JVal) : List String → Option JVal
  | [] => some v
  | k :: rest =>
    match jGetO v k with
    | some v' => jPath v' rest
    | none => none

/-- `d[k]` as an expression that can raise: `KeyError` when `d` is an
object without the key, `TypeError` when `d` is not an object. -/
def jIndex (v : JVal) (k : String) : Except PyErr JVal :=
  match v with
  | .obj l =>
    match joLookup l k with
    | some x => .ok x
    | none => .error .keyError
  | _ => .error .typeError

/-- `d[key]` with an arbitrary value as key. JSON object keys are
strings, so a hashable non-string key is simply absent (`KeyError`)
and an unhashable key (list/dict) raises `TypeError`. -/
def jIndexBy (v : JVal) (key : JVal) : Except PyErr JVal :=
  match v with
  | .obj l =>
    match key with
    | .str s =>
      match joLookup l s with
      | some x => .ok x
      | none => .error .keyError
    | .arr _ => .error .typeError
    | .obj _ => .error .typeError
    | _ => .error .keyError
  | _ => .error .typeError

/-- Python's `[i for n, i in enumerate(l) if i not in l[n + 1:]]`, the
deduplication idiom of every `cleanup_dict` in `featextractor.py`:
an element is kept exactly when no structurally-equal element occurs
later, i.e. the **last** occurrence of each element is kept. -/
def pyDedup {α : Type} [DecidableEq α] : List α → List α
  | [] => []
  | x :: xs => if x ∈ xs then pyDedup xs else x :: pyDedup xs

/-- First-seen-order deduplication (keeps the **first** occurrence of
structurally-equal entries). Used to model Python set comprehensions
turned into lists, and, under `claimFirstSeenDedup`, the ordering the
specification claims for the finalized feature lists. -/
def dedupFirstAux {α : Type} [DecidableEq α] (seen : List α) : List α → List α
  | [] => []
  | x :: xs =>
    if x ∈ seen then dedupFirstAux seen xs
    else x :: dedupFirstAux (seen ++ [x]) xs

/-- Deduplication that keeps the first occurrence of structurally-equal
entries, as the specification describes finalization. -/
def claimFirstSeenDedup {α : Type} [DecidableEq α] (l : List α) : List α :=
  dedupFirstAux [] l

/-- `set.update`-style union preserving insertion order of the set. -/
def pyUnion {α : Type} [DecidableEq α] (acc l : List α) : List α :=
  l.foldl (fun a x => if x ∈ a then a else a ++ [x]) acc

section StateResolver

/-- `TASKS_IGNORE_SNAP_TYPE` from `state.py`. -/
def TASKS_IGNORE_SNAP_TYPE : List String :=
  ["clear-confdb-tx-on-error", "commit-confdb-tx", "clear-confdb-tx",
   "load-confdb-change", "update-gadget-cmdline", "create-recovery-system",
   "finalize-recovery-system", "remove-recovery-system", "check-rerefresh",
   "exec-command", "request-serial", "enforce-validation-sets", "mark-seeded",
   "hotplug-add-slot", "hotplug-connect", "hotplug-disconnect",
   "hotplug-remove-slot", "service-control", "quota-control"]

/-- `State.get_change`: `state['changes'][id]` with `KeyError` turned
into `NotInStateError` (other exceptions propagate unchanged). -/
def getChange (st : JVal) (id : JVal) : Except PyErr JVal :=
  match jIndex st "changes" with
  | .ok c =>
    match jIndexBy c id with
    | .ok x => .ok x
    | .error .keyError => .error .notInState
    | .error e => .error e
  | .error .keyError => .error .notInState
  | .error e => .error e

/-- `State.get_task`: `state['tasks'][id]` with `KeyError` turned into
`NotInStateError`. -/
def getTask (st : JVal) (id : JVal) : Except PyErr JVal :=
  match jIndex st "tasks" with
  | .ok t =>
    match jIndexBy t id with
    | .ok x => .ok x
    | .error .keyError => .error .notInState
    | .error e => .error e
  | .error .keyError => .error .notInState
  | .error e => .error e

/-- `_keys_in_dict(self.state, 'data', 'snaps', snap_name, 'type')`
followed by the corresponding lookup: the third key is the snap name
(a value, not a literal); a non-string name is never a key of a JSON
object. -/
def snapTypeLookup (st : JVal) (name : JVal) : Option JVal :=
  match name with
  | .str s => jPath st ["data", "snaps", s, "type"]
  | _ => none

/-- `str.format` of a scalar value (snap names are strings in every
state snapshot; aggregate values are not modelled further). -/
def pyFormat (v : JVal) : String :=
  match v with
  | .str s => s
  | .num n => toString n
  | .bool b => if b then "True" else "False"
  | .null => "None"
  | .arr _ => "<list>"
  | .obj _ => "<dict>"

/-- The task scan of `State.get_snap_type`: first task (in insertion
order) whose `data.snap-setup.side-info.name` equals the snap name and
which also carries `data.snap-setup.type`. -/
def scanTasksForSnapType : List (String × JVal) → JVal → Option JVal
  | [], _ => none
  | (_, task) :: rest, name =>
    if jPath task ["data", "snap-setup", "side-info", "name"] = some name then
      match jPath task ["data", "snap-setup", "type"] with
      | some tv => some tv
      | none => scanTasksForSnapType rest name
    else scanTasksForSnapType rest name

/-- `State.get_snap_type`: current-snap map first, then the task scan,
else the `"NOT_FOUND: <name>"` sentinel string. -/
def getSnapType (st : JVal) (name : JVal) : Except PyErr JVal :=
  match snapTypeLookup st name with
  | some t => .ok t
  | none =>
    match jIndex st "tasks" with
    | .ok (.obj tasks) =>
      match scanTasksForSnapType tasks name with
      | some t => .ok t
      | none => .ok (.str ("NOT_FOUND: " ++ pyFormat name))
    | .ok _ => .error .typeError
    | .error e => .error e

/-- `snap_data['type']` for every snap of a `snaps` payload. -/
def collectSnapsTypes : List (String × JVal) → Except PyErr (List JVal)
  | [] => .ok []
  | (_, sd) :: rest =>
    match jIndex sd "type" with
    | .ok t =>
      match collectSnapsTypes rest with
      | .ok ts => .ok (t :: ts)
      | .error e => .error e
    | .error e => .error e

/-- `task['kind'] in TASKS_IGNORE_SNAP_TYPE` (only a string can be a
member of a set of strings). -/
def kindIgnored (kind : JVal) : Bool :=
  match kind with
  | .str s => decide (s ∈ TASKS_IGNORE_SNAP_TYPE)
  | _ => false

/-- `State.get_snap_types_from_task_id`, with explicit recursion fuel
for the two task-indirection shapes (Python's recursion limit plays the
same role). The nine payload shapes are tried in source order; the
final fall-through raises `NotInStateError`. -/
def getSnapTypesFromTaskId (st : JVal) : Nat → JVal → Except PyErr (List JVal)
  | 0, _ => .error .recursionError
  | fuel + 1, id =>
    match getTask st id with
    | .error e => .error e
    | .ok task =>
      match jIndex task "kind" with
      | .error e => .error e
      | .ok kind =>
        if kindIgnored kind then
          .ok []
        else
          match jGetO task "data" with
          | none => .ok []
          | some data =>
            if keysInDict data ["snap-type"] then
              .ok [(jPath data ["snap-type"]).getD .null]
            else if keysInDict data ["snap-setup", "type"] then
              .ok [(jPath data ["snap-setup", "type"]).getD .null]
            else if keysInDict data ["snap-setup", "side-info", "name"] then
              match getSnapType st ((jPath data ["snap-setup", "side-info", "name"]).getD .null) with
              | .ok t => .ok [t]
              | .error e => .error e
            else if keysInDict data ["snap-setup-task"] then
              getSnapTypesFromTaskId st fuel ((jGetO data "snap-setup-task").getD .null)
            else if keysInDict data ["hook-setup", "snap"] then
              match getSnapType st ((jPath data ["hook-setup", "snap"]).getD .null) with
              | .ok t => .ok [t]
              | .error e => .error e
            else if keysInDict data ["plug", "snap"] && keysInDict data ["slot", "snap"] then
              match getSnapType st ((jPath data ["plug", "snap"]).getD .null) with
              | .ok a =>
                match getSnapType st ((jPath data ["slot", "snap"]).getD .null) with
                | .ok b => .ok [a, b]
                | .error e => .error e
              | .error e => .error e
            else if keysInDict data ["snaps"] then
              match jGetO data "snaps" with
              | some (.obj snaps) =>
                match collectSnapsTypes snaps with
                | .ok ts => .ok (claimFirstSeenDedup ts)
                | .error e => .error e
              | _ => .error .typeError
            else if keysInDict data ["snapshot-setup", "snap"] then
              match getSnapType st ((jPath data ["snapshot-setup", "snap"]).getD .null) with
              | .ok t => .ok [t]
              | .error e => .error e
            else if keysInDict data ["recovery-system-setup-task"] then
              getSnapTypesFromTaskId st fuel ((jGetO data "recovery-system-setup-task").getD .null)
            else if keysInDict data ["recovery-system-setup", "snap-setup-tasks"] then
              match jPath data ["recovery-system-setup", "snap-setup-tasks"] with
              | some (.arr setupTasks) =>
                match setupTasks.foldlM (fun (acc : List JVal) (t : JVal) =>
                  match getSnapTypesFromTaskId st fuel t with
                  | .ok ts => (Except.ok (acc ++ ts) : Except PyErr (List JVal))
                  | .error e => .error e) [] with
                | .ok ts => .ok (claimFirstSeenDedup ts)
                | .error e => .error e
              | _ => .error .typeError
            else .error .notInState

/-- `State.get_snap_types_from_change_id`: union (as a set, insertion
ordered) of the task resolutions over the change's `task-ids`; a change
without a `task-ids` list resolves to the empty set. -/
def getSnapTypesFromChangeId (st : JVal) (fuel : Nat) (id : JVal) :
    Except PyErr (List JVal) :=
  match getChange st id with
  | .error e => .error e
  | .ok change =>
    match jGetO change "task-ids" with
    | none => .ok []
    | some (.arr tasks) =>
      tasks.foldlM (fun acc t =>
        match getSnapTypesFromTaskId st fuel t with
        | .ok ts => .ok (pyUnion acc ts)
        | .error e => .error e) []
    | some _ => .error .typeError

end StateResolver

section ListDicts

variable {α : Type}

/-- Lookup of a key in an insertion-ordered `dict` of lists (first
match; dict keys are unique by construction). -/
def dfLookup (d : List (String × List α)) (k : String) : Option (List α) :=
  match d with
  | [] => none
  | (k', v) :: rest => if k' = k then some v else dfLookup rest k

/-- The list held at a key, `[]` when absent. -/
def dfGet (d : List (String × List α)) (k : String) : List α :=
  (dfLookup d k).getD []

/-- A `defaultdict(list)` **read** of a missing key inserts the key with
an empty list; `dfTouch` is that insertion side effect. -/
def dfTouch (d : List (String × List α)) (k : String) : List (String × List α) :=
  if (dfLookup d k).isSome then d else d ++ [(k, ([] : List α))]

/-- `d[k] = v`: replace in place, or insert at the end. -/
def dfSet (d : List (String × List α)) (k : String) (v : List α) :
    List (String × List α) :=
  match d with
  | [] => [(k, v)]
  | (k', v') :: rest => if k' = k then (k, v) :: rest else (k', v') :: dfSet rest k v

/-- Update the first element satisfying `p` (a Python find-and-replace
loop ended by `break`). -/
def updFirst (p : α → Bool) (f : α → α) : List α → List α
  | [] => []
  | x :: xs => if p x then f x :: xs else x :: updFirst p f xs

end ListDicts

section Extractor

/-- A feature record as built by `featextractor.py` (a Python dict with
a fixed set of keys per kind; `endpoint` has two shapes depending on
the presence of `action`, and a `task`'s `id` is deleted during
cleanup, modelled by `Option`). -/
inductive Feat where
  | cmd (c : JVal)
  | endpoint (method path : JVal) (action : Option JVal)
  | interface (name plug_snap_type slot_snap_type : JVal)
  | ensure (manager : JVal) (functions : List JVal)
  | task (id : Option JVal) (kind : JVal) (snap_types : List JVal) (last_status : JVal)
  | change (kind : JVal) (snap_types : List JVal)
deriving DecidableEq, Repr

/-- The accumulating `defaultdict(list)` of `get_feature_dictionary`,
as an insertion-ordered association list. -/
abbrev FeatureDict : Type := List (String × List Feat)

/-- `d[k].append(x)`: materialize the key, then extend its list. -/
def dfAppend (d : FeatureDict) (k : String) (x : Feat) : FeatureDict :=
  dfSet (dfTouch d k) k (dfGet d k ++ [x])

/-- `CmdFeature.handle_feature`: `feature_dict['cmds']` is read (and so
materialized) before the `Cmd(cmd=json_entry['cmd'])` argument is
evaluated; a missing `cmd` field is a caught `KeyError` (logged). -/
def handleCmd (d : FeatureDict) (line : JVal) : FeatureDict :=
  let d1 := dfTouch d "cmds"
  match jGetO line "cmd" with
  | some c => dfSet d1 "cmds" (dfGet d1 "cmds" ++ [.cmd c])
  | none => d1

/-- `EndpointFeature.handle_feature`: the `Endpoint` entry is built
**before** `feature_dict['endpoints']` is touched, so a missing
`method`/`path` (caught, logged) leaves the dict untouched. -/
def handleEndpoint (d : FeatureDict) (line : JVal) : FeatureDict :=
  if jHas line "action" then
    match jGetO line "method", jGetO line "path", jGetO line "action" with
    | some m, some p, some a => dfAppend d "endpoints" (.endpoint m p (some a))
    | _, _, _ => d
  else
    match jGetO line "method", jGetO line "path" with
    | some m, some p => dfAppend d "endpoints" (.endpoint m p none)
    | _, _ => d

/-- `InterfaceFeature.handle_feature`: `feature_dict['interfaces']` is
materialized before the entry's fields are read. -/
def handleInterface (d : FeatureDict) (line : JVal) : FeatureDict :=
  let d1 := dfTouch d "interfaces"
  match jGetO line "interface", jGetO line "plug", jGetO line "slot" with
  | some n, some p, some s =>
    dfSet d1 "interfaces" (dfGet d1 "interfaces" ++ [.interface n p s])
  | _, _, _ => d1

/-- The reversed scan of `EnsureFeature.handle_feature`: append the
function name to the most recently opened `Ensure` record of the given
manager; no record of that manager leaves the list unchanged. (The
scan runs over the reversed list; an element without a `manager` key
would raise a caught `KeyError`, leaving the list unchanged — the
`ensures` list only ever holds `ensure` records.) -/
def ensAppendRev (mgr fn : JVal) : List Feat → Option (List Feat)
  | [] => some []
  | .ensure m fs :: rest =>
    if m = mgr then some (.ensure m (fs ++ [fn]) :: rest)
    else
      match ensAppendRev mgr fn rest with
      | some rest' => some (.ensure m fs :: rest')
      | none => none
  | _ :: _ => none

/-- `EnsureFeature.handle_feature`. A line with a `func` field updates
the running accumulator of its manager (all `KeyError`s caught); a line
without `func` opens a fresh `Ensure{manager, functions: []}` record. -/
def handleEnsure (d : FeatureDict) (line : JVal) : FeatureDict :=
  if jHas line "func" then
    let d1 := dfTouch d "ensures"
    match jGetO line "manager", jGetO line "func" with
    | some mv, some fv =>
      match ensAppendRev mv fv (dfGet d1 "ensures").reverse with
      | some rev' => dfSet d1 "ensures" rev'.reverse
      | none => d1
    | _, _ => d1
  else
    let d1 := dfTouch d "ensures"
    match jGetO line "manager" with
    | some mv => dfSet d1 "ensures" (dfGet d1 "ensures" ++ [.ensure mv []])
    | none => d1

/-- `ChangeFeature.handle_feature`: `json_entry['id']` and the state
resolution happen before any dict access; a `KeyError` anywhere in the
body is caught and logged, every other resolution error propagates. -/
def handleChange (st : JVal) (fuel : Nat) (d : FeatureDict) (line : JVal) :
    Except PyErr FeatureDict :=
  match jGetO line "id" with
  | none => .ok d
  | some idv =>
    match getSnapTypesFromChangeId st fuel idv with
    | .ok types =>
      let d1 := dfTouch d "changes"
      match jGetO line "kind" with
      | some k => .ok (dfSet d1 "changes" (dfGet d1 "changes" ++ [.change k types]))
      | none => .ok d1
    | .error .keyError => .ok d
    | .error e => .error e

/-- The update scan of `TaskFeature.handle_feature`: find the first
entry whose `id` equals the line's id. An entry without an `id` key
(impossible for entries built by the handler) would raise an uncaught
`KeyError`. Returns whether a matching entry exists. -/
def taskFindById (idv : JVal) : List Feat → Except PyErr Bool
  | [] => .ok false
  | .task (some i) _ _ _ :: rest =>
    if i = idv then .ok true else taskFindById idv rest
  | _ :: _ => .error .keyError

/-- In-place `entry['last_status'] = json_entry['status']` on the first
entry with the given id. -/
def taskSetStatus (idv stv : JVal) : List Feat → List Feat
  | [] => []
  | .task (some i) k t ls :: rest =>
    if i = idv then .task (some i) k t stv :: rest
    else .task (some i) k t ls :: taskSetStatus idv stv rest
  | f :: rest => f :: taskSetStatus idv stv rest

/-- `TaskFeature.handle_feature`. The find-and-update loop runs
**outside** the `try`, so a line without `id` (when task records exist)
or without `status` (when its id matches an existing record) raises an
uncaught `KeyError` that aborts the whole run. In the `try` block a
`KeyError` (missing field, or a `KeyError` escaping resolution) is
caught and logged; other resolution errors propagate. -/
def handleTask (st : JVal) (fuel : Nat) (d : FeatureDict) (line : JVal) :
    Except PyErr FeatureDict :=
  let d1 := dfTouch d "tasks"
  let tasks := dfGet d1 "tasks"
  match jGetO line "id" with
  | none => if tasks = [] then .ok d1 else .error .keyError
  | some idv =>
    match taskFindById idv tasks with
    | .error e => .error e
    | .ok true =>
      match jGetO line "status" with
      | none => .error .keyError
      | some stv => .ok (dfSet d1 "tasks" (taskSetStatus idv stv tasks))
    | .ok false =>
      match getSnapTypesFromTaskId st fuel idv with
      | .error .keyError => .ok d1
      | .error e => .error e
      | .ok types =>
        match jGetO line "task-name", jGetO line "status" with
        | some kv, some sv =>
          .ok (dfSet d1 "tasks" (dfGet d1 "tasks" ++ [.task (some idv) kv types sv]))
        | _, _ => .ok d1

/-- The six extractor classes, in `FEATURE_LIST` order. -/
inductive FClass where
  | cmd | endpoint | interface | ensure | change | task
deriving DecidableEq, Repr

def FClass.fname : FClass → String
  | .cmd => "cmd"
  | .endpoint => "endpoint"
  | .interface => "interface"
  | .ensure => "ensure"
  | .change => "change"
  | .task => "task"

def FClass.parent : FClass → String
  | .cmd => "cmds"
  | .endpoint => "endpoints"
  | .interface => "interfaces"
  | .ensure => "ensures"
  | .change => "changes"
  | .task => "tasks"

def FClass.msg : FClass → String
  | .cmd => "command-execution"
  | .endpoint => "endpoint"
  | .interface => "interface-connection"
  | .ensure => "ensure"
  | .change => "new-change"
  | .task => "task-status-change"

def FEATURE_LIST : List FClass :=
  [.cmd, .endpoint, .interface, .ensure, .change, .task]

/-- The classes whose `name` occurs in the requested feature list. -/
def classesOf (featureList : List String) : List FClass :=
  FEATURE_LIST.filter (fun c => c.fname ∈ featureList)

/-- `_check_msg`: the line has a `msg` field equal to the class tag
(non-object lines never match). -/
def checkMsg (line : JVal) (m : String) : Bool :=
  jGetO line "msg" = some (.str m)

/-- One class's `handle_feature` dispatch. -/
def handleFeature (st : JVal) (fuel : Nat) (c : FClass) (d : FeatureDict)
    (line : JVal) : Except PyErr FeatureDict :=
  match c with
  | .cmd => .ok (handleCmd d line)
  | .endpoint => .ok (handleEndpoint d line)
  | .interface => .ok (handleInterface d line)
  | .ensure => .ok (handleEnsure d line)
  | .change => handleChange st fuel d line
  | .task => handleTask st fuel d line

/-- The inner dispatch loop of `get_feature_dictionary`: every requested
class whose `msg` tag matches the line handles it. -/
def processLine (st : JVal) (fuel : Nat) (classes : List FClass)
    (d : FeatureDict) (line : JVal) : Except PyErr FeatureDict :=
  classes.foldlM (fun d c =>
    if checkMsg line c.msg then handleFeature st fuel c d line else .ok d) d

/-- The line loop of `get_feature_dictionary` (lines already decoded;
a line that fails to decode aborts the run before any dispatch and is
outside this model). -/
def processLines (st : JVal) (fuel : Nat) (classes : List FClass)
    (lines : List JVal) : Except PyErr FeatureDict :=
  lines.foldlM (processLine st fuel classes) ([] : FeatureDict)

/-- `del entry['id']` of `TaskFeature.cleanup_dict` (the `tasks` list
only ever holds `task` records). -/
def stripTaskId : Feat → Feat
  | .task _ k t ls => .task none k t ls
  | f => f

/-- One class's `cleanup_dict`. `cmd`/`endpoint`/`interface`/`task`
guard on key presence; `ensure`/`change` read the key unconditionally,
materializing it. Every kind deduplicates with the keep-last idiom;
`task` first strips the internal ids. -/
def cleanupClass (c : FClass) (d : FeatureDict) : FeatureDict :=
  match c with
  | .cmd | .endpoint | .interface =>
    match dfLookup d c.parent with
    | some l => dfSet d c.parent (pyDedup l)
    | none => d
  | .ensure | .change =>
    let d1 := dfTouch d c.parent
    dfSet d1 c.parent (pyDedup (dfGet d1 c.parent))
  | .task =>
    match dfLookup d "tasks" with
    | some l => dfSet d "tasks" (pyDedup (l.map stripTaskId))
    | none => d

/-- The finalization pass of `get_feature_dictionary`. -/
def cleanupAll (classes : List FClass) (d : FeatureDict) : FeatureDict :=
  classes.foldl (fun d c => cleanupClass c d) d

/-- What one class's `cleanup_dict` leaves at its own key, as a function
of the raw dictionary: the keep-last deduplication of the observed list
(ids stripped first for tasks; `ensure`/`change` materialize the key
when absent, the guarded kinds leave an absent key absent). -/
def cleanupSpec (c : FClass) (raw : FeatureDict) : Option (List Feat) :=
  match c with
  | .cmd | .endpoint | .interface => (dfLookup raw c.parent).map pyDedup
  | .ensure | .change => some (pyDedup (dfGet raw c.parent))
  | .task => (dfLookup raw "tasks").map (fun l => pyDedup (l.map stripTaskId))

/-- `get_feature_dictionary(log_file, feature_list, state)` over already
decoded lines: validate the requested names, process every line, then
run every requested `cleanup_dict`. -/
def getFeatureDictionary (lines : List JVal) (featureList : List String)
    (st : JVal) (fuel : Nat) : Except PyErr FeatureDict :=
  let classes := classesOf featureList
  if classes.length ≠ featureList.length then .error .valueError
  else
    match processLines st fuel classes lines with
    | .ok raw => .ok (cleanupAll classes raw)
    | .error e => .error e

end Extractor

section PyTaskId

/-- The identity values `TaskId` (suite, task name) and its subclass
`TaskIdVariant` (suite, task name, variant) from `query_features.py`. -/
inductive PyTaskId where
  | bare (suite task_name : String)
  | variant (suite task_name var : String)
deriving DecidableEq, Repr

/-- Python `==` over `TaskId`/`TaskIdVariant`: `TaskIdVariant.__eq__`
ignores the variant when the other operand is a bare `TaskId`, and
`TaskId.__eq__` compares only suite and task name (a `TaskIdVariant`
is an instance of `TaskId`). -/
def pyTaskEq : PyTaskId → PyTaskId → Bool
  | .bare s t, .bare s' t' => s = s' && t = t'
  | .bare s t, .variant s' t' _ => s = s' && t = t'
  | .variant s t _, .bare s' t' => s = s' && t = t'
  | .variant s t v, .variant s' t' v' => s = s' && t = t' && v = v'

/-- The tuple each `__hash__` hashes: `(suite, task_name)` for `TaskId`,
`(suite, task_name, variant)` for `TaskIdVariant`. -/
def pyTaskHashKey : PyTaskId → List String
  | .bare s t => [s, t]
  | .variant s t v => [s, t, v]

/-- Python `x in lst` over a list of task ids (uses `==`). -/
def pyTaskMem (x : PyTaskId) (l : List PyTaskId) : Bool :=
  l.any (fun e => pyTaskEq x e)

end PyTaskId

section Minus

variable {α : Type} [DecidableEq α]

/-- One iteration of the loop of `minus(first, second)`: the entry `kv`
of `first` is copied whole when its key is absent from `second`,
otherwise the surviving entries are kept only when some survive. -/
def minusStep (second : List (String × List α)) (acc : List (String × List α))
    (kv : String × List α) : List (String × List α) :=
  match second.lookup kv.1 with
  | none => acc ++ [kv]
  | some bl =>
    if kv.2.filter (fun item => ¬ item ∈ bl) ≠ [] then
      acc ++ [(kv.1, kv.2.filter (fun item => ¬ item ∈ bl))]
    else acc

/-- `minus(first, second)` from `query_features.py`, generic in the type
of the feature entries (Python compares them with `==`). -/
def minusD (first second : List (String × List α)) : List (String × List α) :=
  first.foldl (minusStep second) []

theorem minusD_fold_mem {k : String} {v : List α}
    (second : List (String × List α)) :
    ∀ (first acc : List (String × List α)),
      (k, v) ∈ first.foldl (minusStep second) acc →
      (k, v) ∈ acc ∨
        ((second.lookup k = none → (k, v) ∈ first) ∧
         (∀ bl, second.lookup k = some bl → v ≠ [])) := by
  intro first
  induction first with
  | nil => intro acc h; exact Or.inl h
  | cons kv0 rest ih =>
    intro acc h
    rw [List.foldl_cons] at h
    rcases ih (minusStep second acc kv0) h with h' | h'
    · rcases hl : second.lookup kv0.1 with _ | bl
      · simp only [minusStep, hl] at h'
        rcases List.mem_append.1 h' with h'' | h''
        · exact Or.inl h''
        · simp only [List.mem_singleton] at h''
          refine Or.inr ⟨fun _ => ?_, fun bl hbl => ?_⟩
          · rw [h'']; exact List.mem_cons_self _ _
          · rw [show k = kv0.1 from congrArg Prod.fst h''] at hbl
            rw [hl] at hbl; exact absurd hbl (by simp)
      · simp only [minusStep, hl] at h'
        by_cases hm : kv0.2.filter (fun item => ¬ item ∈ bl) ≠ []
        · rw [if_pos hm] at h'
          rcases List.mem_append.1 h' with h'' | h''
          · exact Or.inl h''
          · simp only [List.mem_singleton, Prod.mk.injEq] at h''
            refine Or.inr ⟨fun hnone => ?_, fun bl' hbl' => ?_⟩
            · rw [h''.1] at hnone; rw [hl] at hnone; exact absurd hnone (by simp)
            · rw [h''.2]; simpa using hm
        · rw [if_neg hm] at h'; exact Or.inl h'
    · refine Or.inr ⟨fun hnone => List.mem_cons_of_mem _ (h'.1 hnone), h'.2⟩

end Minus

section Composer

/-- A parsed JSON test record as handled by `_replace_tests` (treated as
an opaque dict). -/
abbrev PyDict : Type := List (String × JVal)

/-- The test key `(suite, task_name, variant)` as read by
`_replace_tests` (present in every composed record). -/
def testKeyOf (t : PyDict) : Option JVal × Option JVal × Option JVal :=
  (joLookup t "suite", joLookup t "task_name", joLookup t "variant")

/-- The match condition of `_replace_tests`:
`old_test['task_name'] == test['task_name'] and old_test['suite'] ==
test['suite'] and old_test['variant'] == test['variant']`. -/
def testMatch (o t : PyDict) : Bool :=
  decide (joLookup o "task_name" = joLookup t "task_name") &&
  decide (joLookup o "suite" = joLookup t "suite") &&
  decide (joLookup o "variant" = joLookup t "variant")

/-- A composed test record carries the three key fields. -/
def hasTestKeys (t : PyDict) : Prop :=
  (joLookup t "suite").isSome ∧ (joLookup t "task_name").isSome ∧
    (joLookup t "variant").isSome

/-- One iteration of the outer loop of `_replace_tests`: the first old
test with the same `(suite, task_name, variant)` is cleared and
overwritten field-for-field with the rerun test (so it becomes the
rerun record), then the loop breaks. -/
def replaceMatching (old : List PyDict) (t : PyDict) : List PyDict :=
  updFirst (fun o => testMatch o t) (fun _ => t) old

/-- `_replace_tests` on the two `tests` lists: every rerun test is
folded into the original list. -/
def replaceTests (old new : List PyDict) : List PyDict :=
  new.foldl replaceMatching old

/-- Python `s.endswith(t)` (over the character lists, which the kernel
can evaluate). -/
def strEndsWith (s t : String) : Bool :=
  t.data.isSuffixOf s.data

/-- Python `s.startswith(t)`. -/
def strStartsWith (s t : String) : Bool :=
  t.data.isPrefixOf s.data

/-- Drop the last `n` characters. -/
def strDropRight (s : String) (n : Nat) : String :=
  String.mk (s.data.take (s.data.length - n))

/-- Python `s.split(sep)` for a one-character separator, accumulator
style: `"".split('_') == ['']` and separators at the ends produce empty
fields, as in Python. -/
def splitOnCharAux (c : Char) : List Char → List Char → List (List Char)
  | [], acc => [acc.reverse]
  | x :: xs, acc =>
    if x = c then acc.reverse :: splitOnCharAux c xs []
    else splitOnCharAux c xs (x :: acc)

/-- Python `s.split('_')`. -/
def splitUnderscore (s : String) : List String :=
  (splitOnCharAux '_' s.data []).map String.mk

/-- Python `'_'.join(parts)`. -/
def joinUnderscore (parts : List String) : String :=
  String.mk (List.intercalate ['_'] (parts.map String.data))

/-- `_remove_json_extension`: `os.path.splitext(f)[0]` when the name
ends in `.json` (for a name that is only `.json`, `splitext` treats it
as a hidden file with no extension). -/
def stripJsonExt (f : String) : String :=
  if strEndsWith f ".json" && f != ".json" then strDropRight f 5 else f

/-- An original-run file: the name without extension ends in `_1`. -/
def endsWithRunOne (f : String) : Bool :=
  strEndsWith (stripJsonExt f) "_1"

/-- `str.isdigit` (empty string is not a digit string; ASCII digits). -/
def isDigitStr (s : String) : Bool :=
  !s.data.isEmpty && s.data.all Char.isDigit

/-- `_get_name_without_run_number`. -/
def nameWithoutRunNumber (f : String) : String :=
  let parts := splitUnderscore (stripJsonExt f)
  match parts.getLast? with
  | some last => if isDigitStr last then joinUnderscore parts.dropLast
                 else stripJsonExt f
  | none => stripJsonExt f

/-- The value of Python `int(s)` on an optionally signed digit string
(`ValueError`, i.e. `none`, otherwise). -/
def pyInt (s : String) : Option Int :=
  match s.data with
  | '-' :: rest =>
    if !rest.isEmpty && rest.all Char.isDigit then
      some (-(rest.foldl (fun n c => 10 * n + (c.toNat - '0'.toNat)) 0 : Nat))
    else none
  | l =>
    if !l.isEmpty && l.all Char.isDigit then
      some ((l.foldl (fun n c => 10 * n + (c.toNat - '0'.toNat)) 0 : Nat) : Int)
    else none

/-- The sort key of the rerun list:
`int(_remove_json_extension(x).split('_')[-1])`. -/
def attemptKey (f : String) : Option Int :=
  (splitUnderscore (stripJsonExt f)).getLast?.bind pyInt

/-- Stable insertion of one element after every element of smaller or
equal key (models the stability of Python's `list.sort`). -/
def insertByKey (key : String → Int) (x : String) : List String → List String
  | [] => [x]
  | y :: ys => if key y ≤ key x then y :: insertByKey key x ys else x :: y :: ys

/-- Stable sort by key. -/
def sortByKey (key : String → Int) (l : List String) : List String :=
  l.foldl (fun acc x => insertByKey key x acc) []

/-- `reruns.sort(key=...)`: `int()` raises `ValueError` on a last
`_`-component that is not an integer literal. -/
def sortReruns (l : List String) : Except PyErr (List String) :=
  if l.all (fun f => (attemptKey f).isSome) then
    .ok (sortByKey (fun f => (attemptKey f).getD 0) l)
  else .error .valueError

/-- The orphan-rerun scan of `_get_original_and_rerun_list`: folds the
sorted rerun list into `(no_originals, has_rerun)`. -/
def orphanScan (originals : List String) (reruns : List String) :
    List String × List String :=
  reruns.foldl
    (fun acc rerun =>
      let bare := nameWithoutRunNumber rerun
      if acc.1.any (fun o => strStartsWith o bare) then
        (acc.1, if bare ∈ acc.2 then acc.2 else acc.2 ++ [bare])
      else if ¬ originals.any (fun o => strStartsWith o bare) then
        (acc.1 ++ [rerun], acc.2)
      else acc)
    ([], [])

/-- `_get_original_and_rerun_list`: split the file names into original
runs (ending `_1`, and only those with some rerun) and sorted reruns;
then prune reruns without an original, promoting the earliest rerun of
a system to the originals when that system has further reruns. -/
def getOriginalAndRerunList (filenames : List String) :
    Except PyErr (List String × List String) :=
  let reruns0 := filenames.filter (fun f => !endsWithRunOne f)
  let originals0 := filenames.filter (fun f =>
    endsWithRunOne f &&
      reruns0.any (fun r => strStartsWith r (strDropRight (stripJsonExt f) 2)))
  match sortReruns reruns0 with
  | .error e => .error e
  | .ok sorted =>
    let pruned := orphanScan originals0 sorted
    let reruns1 := pruned.1.foldl (fun rs o => rs.erase o) sorted
    let originals1 :=
      originals0 ++ pruned.1.filter (fun o => nameWithoutRunNumber o ∈ pruned.2)
    .ok (originals1, reruns1)

/-- One iteration of the consolidation loop of `replace_old_runs`:
`original = list(filter(lambda x: x.startswith(result_name), originals))`
and `len(original) != 1` is the fatal `RuntimeError`. -/
def planStep (originals : List String) (acc : List (String × String))
    (rerun : String) : Except PyErr (List (String × String)) :=
  match originals.filter (fun x => strStartsWith x (nameWithoutRunNumber rerun)) with
  | [orig] => .ok (acc ++ [(orig, rerun)])
  | _ => .error .runtimeError

/-- The decision structure of `replace_old_runs`: for every surviving
rerun, the unique original whose name extends the rerun's stripped name
(zero or several candidates raise the fatal `RuntimeError`); files that
are neither originals nor reruns are copied through unchanged. Returns
the (original, rerun) consolidation pairs and the copied files. -/
def replaceOldRunsPlan (filenames : List String) :
    Except PyErr (List (String × String) × List String) :=
  match getOriginalAndRerunList filenames with
  | .error e => .error e
  | .ok (originals, reruns) =>
    match reruns.foldlM (planStep originals) [] with
    | .ok pairs =>
      .ok (pairs, filenames.filter (fun f => !originals.contains f && !reruns.contains f))
    | .error e => .error e

end Composer

section QueryEngine

/-- `KNOWN_FEATURES` from `query_features.py`. -/
def KNOWN_FEATURES : List String :=
  ["cmds", "endpoints", "ensures", "tasks", "changes", "interfaces"]

/-- A test record of a composed report as the query engine reads it:
the identification fields, the success flag and the feature lists (the
type of individual feature entries is kept generic — Python compares
them with `==`). -/
structure QTest (α : Type) where
  suite : String
  task_name : String
  variant : String
  success : Bool
  feats : List (String × List α)
deriving DecidableEq, Repr

/-- `consolidate_system_features`: union every feature list of every
test that passes the include/exclude filters into one `defaultdict`
(the membership probe materializes the key, `in` uses `==`, and the
filters compare `TaskIdVariant(test...)` against the given task ids
with Python `==`, which ignores the variant against a bare `TaskId`). -/
def consolidate {α : Type} [DecidableEq α] (tests : List (QTest α))
    (includeT excludeT : Option (List PyTaskId)) : List (String × List α) :=
  tests.foldl
    (fun acc t =>
      if (match includeT with
          | some inc => !pyTaskMem (.variant t.suite t.task_name t.variant) inc
          | none => false) then acc
      else if (match excludeT with
          | some exc => pyTaskMem (.variant t.suite t.task_name t.variant) exc
          | none => false) then acc
      else
        t.feats.foldl
          (fun acc kv =>
            if kv.1 ∈ KNOWN_FEATURES then
              kv.2.foldl
                (fun acc f =>
                  let a1 := dfTouch acc kv.1
                  if f ∈ dfGet a1 kv.1 then a1
                  else dfSet a1 kv.1 (dfGet a1 kv.1 ++ [f]))
                acc
            else acc)
          acc)
    []

/-- `to_check` of `check_duplicate`: the feature items of the task dict
(`{key: value for key, value in task.items() if key in KNOWN_FEATURES}`). -/
def toCheck {α : Type} (t : QTest α) : List (String × List α) :=
  t.feats.filter (fun kv => kv.1 ∈ KNOWN_FEATURES)

/-- `check_duplicate`: consolidate the report without any variant of the
task's `(suite, task_name)`, subtract, and report the task when its
feature dict is non-empty while the difference is empty. -/
def checkDuplicate {α : Type} [DecidableEq α] (t : QTest α)
    (tests : List (QTest α)) : Option PyTaskId :=
  let features := consolidate tests none (some [.bare t.suite t.task_name])
  let tc := toCheck t
  let mns := minusD tc features
  if tc ≠ [] ∧ mns = [] then some (.variant t.suite t.task_name t.variant)
  else none

/-- `dup`: optionally drop failed tests, then collect the non-`None`
results of `check_duplicate` over every test (the process pool's `map`
preserves order). -/
def dupQ {α : Type} [DecidableEq α] (tests : List (QTest α))
    (removeFailed : Bool) : List PyTaskId :=
  let tests1 := if removeFailed then tests.filter (fun t => t.success) else tests
  tests1.filterMap (fun t => checkDuplicate t tests1)

end QueryEngine

section RetrieverModel

/-- A `SystemFeatures` document as cached by a `Retriever`: its
`system` field and an opaque body. -/
structure SysDoc where
  system : String
  body : String
deriving DecidableEq, Repr

/-- One `self.cache[timestamp]` entry: the optional `'systems'` and
`'all-features'` keys. -/
structure CacheEntry where
  systems : Option (List SysDoc)
  allFeatures : Option String
deriving DecidableEq, Repr

/-- `self.cache`, keyed by timestamp. -/
abbrev RetCache : Type := List (String × CacheEntry)

/-- The abstract backend (`_get_single_json` / `_get_systems`) behind a
`Retriever`. -/
structure Backend where
  single : String → String → SysDoc
  systemsOf : String → Option (List String) → List SysDoc

/-- `timestamp in self.cache and 'systems' in self.cache[timestamp]`,
returning the cached full list when present. -/
def cacheSystems (st : RetCache) (ts : String) : Option (List SysDoc) :=
  match st.lookup ts with
  | some e => e.systems
  | none => none

/-- `self.cache[timestamp]['systems'] = ...` (creating the timestamp
entry when absent). -/
def cacheSetSystems (st : RetCache) (ts : String) (lst : List SysDoc) : RetCache :=
  match st.lookup ts with
  | some _ =>
    st.map (fun kv => if kv.1 = ts then (ts, CacheEntry.mk (some lst) kv.2.allFeatures) else kv)
  | none => st ++ [(ts, CacheEntry.mk (some lst) none)]

/-- Python truthiness of the `systems` argument (`None` and `[]` are
both falsy). -/
def isFalsySystems : Option (List String) → Bool
  | none => true
  | some l => l.isEmpty

/-- `Retriever.get_single_json`: answer from the cached full list when
it holds the system, otherwise ask the backend; never writes the
cache. -/
def getSingleJson (b : Backend) (st : RetCache) (ts sys : String) :
    SysDoc × RetCache :=
  match cacheSystems st ts with
  | some lst =>
    match lst.find? (fun d => d.system == sys) with
    | some d => (d, st)
    | none => (b.single ts sys, st)
  | none => (b.single ts sys, st)

/-- `Retriever.get_systems`: a cached full list answers every request
(filtered for an explicit subset); on a cache miss an explicit subset
is fetched without caching, while a full scan is fetched and cached. -/
def getSystems (b : Backend) (st : RetCache) (ts : String)
    (systems : Option (List String)) : List SysDoc × RetCache :=
  match cacheSystems st ts with
  | some lst =>
    if isFalsySystems systems then (lst, st)
    else (lst.filter (fun d => d.system ∈ systems.getD []), st)
  | none =>
    if !isFalsySystems systems then (b.systemsOf ts systems, st)
    else
      let lst := b.systemsOf ts systems
      (lst, cacheSetSystems st ts lst)

/-- A concrete backend whose answers differ from a stale cache entry,
to witness cache hits. -/
def demoBackend : Backend :=
  Backend.mk (fun _ _ => SysDoc.mk "s1" "fresh") (fun _ _ => [SysDoc.mk "s1" "fresh"])

/-- A cache holding a full-scan list for timestamp `"t"`. -/
def demoCache : RetCache :=
  [("t", CacheEntry.mk (some [SysDoc.mk "s1" "cached"]) none)]

end RetrieverModel

end Snapd

namespace Snapd

section DictLemmas

variable {α : Type}

theorem dfLookup_dfSet_self (d : List (String × List α)) (k : String) (v : List α) :
    dfLookup (dfSet d k v) k = some v := by
  induction d with
  | nil => simp [dfSet, dfLookup]
  | cons kv rest ih =>
    obtain ⟨k0, v0⟩ := kv
    simp only [dfSet]
    by_cases h0 : k0 = k
    · rw [if_pos h0]
      simp [dfLookup]
    · rw [if_neg h0]
      simp only [dfLookup]
      rw [if_neg h0]
      exact ih

theorem dfLookup_dfSet_ne (d : List (String × List α)) (k k' : String) (v : List α)
    (h : k' ≠ k) : dfLookup (dfSet d k v) k' = dfLookup d k' := by
  induction d with
  | nil =>
    simp only [dfSet, dfLookup]
    rw [if_neg (fun he => h he.symm)]
  | cons kv rest ih =>
    obtain ⟨k0, v0⟩ := kv
    simp only [dfSet]
    by_cases h0 : k0 = k
    · subst h0
      rw [if_pos rfl]
      simp only [dfLookup]
      rw [if_neg (fun he => h he.symm), if_neg (fun he => h he.symm)]
    · rw [if_neg h0]
      simp only [dfLookup]
      by_cases h1 : k0 = k'
      · rw [if_pos h1, if_pos h1]
      · rw [if_neg h1, if_neg h1]
        exact ih

theorem dfLookup_append_single_self (d : List (String × List α)) (k : String)
    (v : List α) (h : dfLookup d k = none) :
    dfLookup (d ++ [(k, v)]) k = some v := by
  induction d with
  | nil => simp [dfLookup]
  | cons kv rest ih =>
    obtain ⟨k0, v0⟩ := kv
    simp only [dfLookup, List.cons_append] at h ⊢
    by_cases h0 : k0 = k
    · rw [if_pos h0] at h
      exact absurd h (by simp)
    · rw [if_neg h0] at h ⊢
      exact ih h

theorem dfLookup_append_single_ne (d : List (String × List α)) (k k' : String)
    (v : List α) (h : k' ≠ k) :
    dfLookup (d ++ [(k, v)]) k' = dfLookup d k' := by
  induction d with
  | nil =>
    simp only [List.nil_append, dfLookup]
    rw [if_neg (fun he => h he.symm)]
  | cons kv rest ih =>
    obtain ⟨k0, v0⟩ := kv
    simp only [dfLookup, List.cons_append]
    by_cases h0 : k0 = k'
    · rw [if_pos h0, if_pos h0]
    · rw [if_neg h0, if_neg h0]
      exact ih

theorem dfLookup_dfTouch_self (d : List (String × List α)) (k : String) :
    dfLookup (dfTouch d k) k = some (dfGet d k) := by
  unfold dfTouch dfGet
  rcases h : dfLookup d k with _ | v
  · simp only [h, Option.isSome_none, Bool.false_eq_true, if_false, Option.getD_none]
    exact dfLookup_append_single_self d k [] h
  · simp [h]

theorem dfLookup_dfTouch_ne (d : List (String × List α)) (k k' : String)
    (h : k' ≠ k) : dfLookup (dfTouch d k) k' = dfLookup d k' := by
  unfold dfTouch
  rcases hd : dfLookup d k with _ | v
  · simp only [hd, Option.isSome_none, Bool.false_eq_true, if_false]
    exact dfLookup_append_single_ne d k k' [] h
  · simp

theorem dfSet_lookup_self (d : List (String × List α)) (k : String) (v : List α)
    (h : dfLookup d k = some v) : dfSet d k v = d := by
  induction d with
  | nil => simp [dfLookup] at h
  | cons kv rest ih =>
    obtain ⟨k0, v0⟩ := kv
    simp only [dfSet]
    by_cases h0 : k0 = k
    · subst h0
      have hv : v0 = v := by simpa [dfLookup] using h
      rw [if_pos rfl, hv]
    · simp only [dfLookup, if_neg h0] at h
      rw [if_neg h0, ih h]

theorem dfTouch_of_isSome (d : List (String × List α)) (k : String)
    (h : (dfLookup d k).isSome) : dfTouch d k = d := by
  simp [dfTouch, h]

end DictLemmas

section DedupLemmas

variable {α : Type} [DecidableEq α]

theorem pyDedup_eq_dedup (l : List α) : pyDedup l = l.dedup := by
  induction l with
  | nil => simp [pyDedup]
  | cons x xs ih =>
    by_cases h : x ∈ xs
    · rw [pyDedup, if_pos h, ih, List.dedup_cons_of_mem h]
    · rw [pyDedup, if_neg h, ih, List.dedup_cons_of_not_mem h]

theorem mem_pyDedup {a : α} {l : List α} : a ∈ pyDedup l ↔ a ∈ l := by
  rw [pyDedup_eq_dedup]; exact List.mem_dedup

theorem pyDedup_nodup (l : List α) : (pyDedup l).Nodup := by
  rw [pyDedup_eq_dedup]; exact List.nodup_dedup l

theorem dedupFirstAux_append (x : α) :
    ∀ (l : List α) (seen : List α),
      dedupFirstAux seen (l ++ [x]) =
        dedupFirstAux seen l ++ (if x ∈ seen ∨ x ∈ l then [] else [x]) := by
  intro l
  induction l with
  | nil =>
    intro seen
    by_cases h : x ∈ seen <;> simp [dedupFirstAux, h]
  | cons y ys ih =>
    intro seen
    rw [List.cons_append]
    by_cases hy : y ∈ seen
    · have hcond : (x ∈ seen ∨ x ∈ y :: ys) ↔ (x ∈ seen ∨ x ∈ ys) := by
        constructor
        · rintro (h | h)
          · exact Or.inl h
          · rcases List.mem_cons.1 h with rfl | h
            · exact Or.inl hy
            · exact Or.inr h
        · rintro (h | h)
          · exact Or.inl h
          · exact Or.inr (List.mem_cons_of_mem _ h)
      rw [show dedupFirstAux seen (y :: (ys ++ [x])) = dedupFirstAux seen (ys ++ [x]) from
            by rw [dedupFirstAux, if_pos hy],
          ih seen,
          show dedupFirstAux seen (y :: ys) = dedupFirstAux seen ys from
            by rw [dedupFirstAux, if_pos hy]]
      congr 1
      by_cases hc : x ∈ seen ∨ x ∈ ys
      · rw [if_pos hc, if_pos (hcond.2 hc)]
      · rw [if_neg hc, if_neg (fun h => hc (hcond.1 h))]
    · have hcond : (x ∈ seen ++ [y] ∨ x ∈ ys) ↔ (x ∈ seen ∨ x ∈ y :: ys) := by
        simp only [List.mem_append, List.mem_singleton, List.mem_cons]
        tauto
      rw [show dedupFirstAux seen (y :: (ys ++ [x]))
              = y :: dedupFirstAux (seen ++ [y]) (ys ++ [x]) from
            by rw [dedupFirstAux, if_neg hy],
          ih (seen ++ [y]),
          show dedupFirstAux seen (y :: ys) = y :: dedupFirstAux (seen ++ [y]) ys from
            by rw [dedupFirstAux, if_neg hy]]
      rw [List.cons_append]
      congr 1
      congr 1
      by_cases hc : x ∈ seen ++ [y] ∨ x ∈ ys
      · rw [if_pos hc, if_pos (hcond.1 hc)]
      · rw [if_neg hc, if_neg (fun h => hc (hcond.2 h))]

theorem pyDedup_eq_reverse_firstSeen (l : List α) :
    pyDedup l = (claimFirstSeenDedup l.reverse).reverse := by
  induction l with
  | nil => simp [pyDedup, claimFirstSeenDedup, dedupFirstAux]
  | cons x xs ih =>
    unfold claimFirstSeenDedup at ih ⊢
    rw [List.reverse_cons, dedupFirstAux_append, List.reverse_append]
    by_cases h : x ∈ xs
    · rw [pyDedup, if_pos h, ih,
        if_pos (Or.inr (List.mem_reverse.2 h))]
      simp
    · rw [pyDedup, if_neg h, ih,
        if_neg (by simp [List.mem_reverse, h])]
      simp

end DedupLemmas

section HandlerLemmas

theorem dfGet_dfTouch (d : List (String × List Feat)) (k : String) :
    dfGet (dfTouch d k) k = dfGet d k := by
  unfold dfGet
  rw [dfLookup_dfTouch_self]
  rfl

theorem ensAppendRev_no_match (mgr fn : JVal) :
    ∀ (l : List Feat), (∀ fs, Feat.ensure mgr fs ∉ l) →
      ensAppendRev mgr fn l = some l ∨ ensAppendRev mgr fn l = none := by
  intro l
  induction l with
  | nil => intro _; exact Or.inl rfl
  | cons f rest ih =>
    intro h
    match f with
    | .ensure m fs =>
      have hm : m ≠ mgr := by
        intro he
        exact h fs (by rw [he]; exact List.mem_cons_self _ _)
      rw [ensAppendRev, if_neg hm]
      rcases ih (fun fs' hmem => h fs' (List.mem_cons_of_mem _ hmem)) with h' | h'
      · rw [h']; exact Or.inl rfl
      · rw [h']; exact Or.inr rfl
    | .cmd c => exact Or.inr rfl
    | .endpoint m p a => exact Or.inr rfl
    | .interface n p s => exact Or.inr rfl
    | .task i k t ls => exact Or.inr rfl
    | .change k t => exact Or.inr rfl

end HandlerLemmas

/-- C10: an `ensure` line carrying `func` whose manager has no open
`Ensure` record drops the function name silently — no record is
created and no error raised — but the claim that the feature dictionary
is left **completely unchanged** fails: the `defaultdict` read
materializes the `ensures` key, so on a dictionary without that key the
handler returns `[("ensures", [])]`, not the unchanged `[]`. -/
theorem ensure_unknown_manager_counterexample :
    handleEnsure []
      (.obj [("msg", .str "ensure"), ("manager", .str "m"), ("func", .str "f")]) =
      [("ensures", [])] ∧
    ([("ensures", [])] : FeatureDict) ≠ [] := by
  constructor
  · decide
  · decide

/-- C10 amended: for an `ensure` line carrying `func` (and a manager)
with no open `Ensure` record for that manager, the handler creates no
record, raises no error, and changes the dictionary only by the
`defaultdict` materialization of the `ensures` key — in particular the
dictionary is completely unchanged whenever the key already exists. -/
theorem ensure_unknown_manager_amended (d : FeatureDict) (line mv fv : JVal)
    (hf : jGetO line "func" = some fv)
    (hm : jGetO line "manager" = some mv)
    (hno : ∀ fs, Feat.ensure mv fs ∉ dfGet d "ensures") :
    handleEnsure d line = dfTouch d "ensures" ∧
    ((dfLookup d "ensures").isSome → dfTouch d "ensures" = d) := by
  constructor
  · unfold handleEnsure
    rw [if_pos (by simp [jHas, hf]), hm, hf]
    have hsame : dfGet (dfTouch d "ensures") "ensures" = dfGet d "ensures" :=
      dfGet_dfTouch d "ensures"
    have hno' : ∀ fs, Feat.ensure mv fs ∉ (dfGet (dfTouch d "ensures") "ensures").reverse := by
      intro fs hmem
      exact hno fs (hsame ▸ List.mem_reverse.1 hmem)
    show (match ensAppendRev mv fv (dfGet (dfTouch d "ensures") "ensures").reverse with
          | some rev' => dfSet (dfTouch d "ensures") "ensures" rev'.reverse
          | none => dfTouch d "ensures") = dfTouch d "ensures"
    rcases ensAppendRev_no_match mv fv _ hno' with h' | h'
    · rw [h']
      show dfSet (dfTouch d "ensures") "ensures"
          (dfGet (dfTouch d "ensures") "ensures").reverse.reverse = dfTouch d "ensures"
      rw [List.reverse_reverse]
      exact dfSet_lookup_self _ _ _ (by rw [dfLookup_dfTouch_self, hsame])
    · rw [h']
  · exact dfTouch_of_isSome d "ensures"

/-- C10 amended witness: a dictionary already holding an `Ensure` record
of a different manager is returned unchanged. -/
theorem ensure_unknown_manager_witness :
    handleEnsure [("ensures", [Feat.ensure (.str "other") []])]
      (.obj [("msg", .str "ensure"), ("manager", .str "m"), ("func", .str "f")]) =
      dfTouch [("ensures", [Feat.ensure (.str "other") []])] "ensures" :=
  (ensure_unknown_manager_amended [("ensures", [Feat.ensure (.str "other") []])]
    (.obj [("msg", .str "ensure"), ("manager", .str "m"), ("func", .str "f")])
    (.str "m") (.str "f") (by decide) (by decide)
    (by
      intro fs hmem
      simp [dfGet, dfLookup] at hmem)).1

/-- C7: a recognized line missing a required field is **not** always a
logged-and-skipped soft error: a `task-status-change` line without `id`
aborts the whole run with an uncaught `KeyError` as soon as at least
one task record exists. Here the first line creates a task record and
the second (missing `id`) aborts extraction. -/
theorem task_missing_id_aborts_counterexample :
    getFeatureDictionary
      [.obj [("msg", .str "task-status-change"), ("id", .str "1"),
             ("task-name", .str "t"), ("status", .str "Doing")],
       .obj [("msg", .str "task-status-change"),
             ("task-name", .str "t2"), ("status", .str "Done")]]
      ["task"]
      (.obj [("tasks", .obj [("1", .obj [("kind", .str "t"),
        ("data", .obj [("snap-type", .str "app")])])])])
      3 = .error .keyError := by
  decide

/-- C7 amended: a missing required field is logged and the line skipped
for `cmd`, `endpoint`, `interface`, `ensure` and `change` lines, and
for a `task` line while no task record exists — but a `task` line
without `id` aborts the run with an uncaught `KeyError` once a task
record exists (as does a missing `status` on an id match, by the same
out-of-`try` loop). -/
theorem missing_field_amended :
    (∀ (d : FeatureDict) (line : JVal), jGetO line "cmd" = none →
      handleCmd d line = dfTouch d "cmds") ∧
    (∀ (d : FeatureDict) (line : JVal),
      jGetO line "method" = none ∨ jGetO line "path" = none →
      handleEndpoint d line = d) ∧
    (∀ (d : FeatureDict) (line : JVal),
      jGetO line "interface" = none ∨ jGetO line "plug" = none ∨
        jGetO line "slot" = none →
      handleInterface d line = dfTouch d "interfaces") ∧
    (∀ (d : FeatureDict) (line : JVal),
      jGetO line "func" = none → jGetO line "manager" = none →
      handleEnsure d line = dfTouch d "ensures") ∧
    (∀ (d : FeatureDict) (line fv : JVal),
      jGetO line "func" = some fv → jGetO line "manager" = none →
      handleEnsure d line = dfTouch d "ensures") ∧
    (∀ (st : JVal) (fuel : Nat) (d : FeatureDict) (line : JVal),
      jGetO line "id" = none → handleChange st fuel d line = .ok d) ∧
    (∀ (st : JVal) (fuel : Nat) (d : FeatureDict) (line : JVal),
      jGetO line "id" = none → dfGet d "tasks" = [] →
      handleTask st fuel d line = .ok (dfTouch d "tasks")) ∧
    (∀ (st : JVal) (fuel : Nat) (d : FeatureDict) (line : JVal),
      jGetO line "id" = none → dfGet d "tasks" ≠ [] →
      handleTask st fuel d line = .error .keyError) := by
  refine ⟨?_, ?_, ?_, ?_, ?_, ?_, ?_, ?_⟩
  · intro d line h
    unfold handleCmd
    rw [h]
  · intro d line h
    unfold handleEndpoint
    rcases h with h | h <;>
      rcases ha : jHas line "action" <;>
        simp only [ha, if_true, if_false, Bool.false_eq_true, h] <;>
          rcases jGetO line "method" with _ | m <;>
            rcases jGetO line "path" with _ | p <;>
              rfl
  · intro d line h
    unfold handleInterface
    rcases h with h | h | h <;> rw [h] <;>
      rcases jGetO line "interface" with _ | n <;>
        rcases jGetO line "plug" with _ | p <;>
          rcases jGetO line "slot" with _ | s <;>
            rfl
  · intro d line h hm
    unfold handleEnsure
    rw [if_neg (by simp [jHas, h]), hm]
  · intro d line fv h hm
    unfold handleEnsure
    rw [if_pos (by simp [jHas, h]), hm, h]
  · intro st fuel d line h
    unfold handleChange
    rw [h]
  · intro st fuel d line h htasks
    unfold handleTask
    rw [h]
    simp only [dfGet_dfTouch, htasks, if_pos]
  · intro st fuel d line h htasks
    unfold handleTask
    rw [h]
    simp only [dfGet_dfTouch]
    rw [if_neg htasks]

/-- C7 amended witness: a `task` line without `id` aborts when a task
record exists, and is skipped (with only the `defaultdict`
materialization) when none does. -/
theorem missing_field_witness :
    handleTask (.obj []) 1
      [("tasks", [Feat.task (some (.str "1")) (.str "k") [] (.str "Doing")])]
      (.obj [("msg", .str "task-status-change"), ("status", .str "Done")]) =
      .error .keyError ∧
    handleCmd [] (.obj [("msg", .str "command-execution")]) = dfTouch [] "cmds" :=
  ⟨missing_field_amended.2.2.2.2.2.2.2 (.obj []) 1
      [("tasks", [Feat.task (some (.str "1")) (.str "k") [] (.str "Doing")])]
      (.obj [("msg", .str "task-status-change"), ("status", .str "Done")])
      (by decide) (by decide),
   missing_field_amended.1 [] (.obj [("msg", .str "command-execution")]) (by decide)⟩

/-- C2: a `task-status-change` (or `new-change`) line whose snap-type
resolution fails with the resolver's `NotInStateError` does **not**
continue with a `["NOT_FOUND"]` sentinel: the handler catches only
`KeyError`, so the error propagates and aborts extraction. -/
theorem notfound_aborts_counterexample :
    getFeatureDictionary
      [.obj [("msg", .str "task-status-change"), ("id", .str "7"),
             ("task-name", .str "weird"), ("status", .str "Doing")]]
      ["task"]
      (.obj [("tasks", .obj [("7", .obj [("kind", .str "weird"),
        ("data", .obj [("something", .str "else")])])])])
      3 = .error .notInState ∧
    getFeatureDictionary
      [.obj [("msg", .str "new-change"), ("id", .str "1"), ("kind", .str "k")]]
      ["change"]
      (.obj [("changes", .obj [("1", .obj [("task-ids", .arr [.str "7"])])]),
             ("tasks", .obj [("7", .obj [("kind", .str "weird"),
               ("data", .obj [("something", .str "else")])])])])
      3 = .error .notInState := by
  constructor
  · decide
  · decide

/-- C2 amended: when resolution of a new task or change id fails with
`NotInStateError`, the handler (which catches only `KeyError`) lets the
error escape, aborting extraction; no sentinel value is substituted. -/
theorem notfound_aborts_amended :
    (∀ (st : JVal) (fuel : Nat) (d : FeatureDict) (line idv : JVal),
      jGetO line "id" = some idv →
      getSnapTypesFromChangeId st fuel idv = .error .notInState →
      handleChange st fuel d line = .error .notInState) ∧
    (∀ (st : JVal) (fuel : Nat) (d : FeatureDict) (line idv : JVal),
      jGetO line "id" = some idv →
      taskFindById idv (dfGet d "tasks") = .ok false →
      getSnapTypesFromTaskId st fuel idv = .error .notInState →
      handleTask st fuel d line = .error .notInState) := by
  constructor
  · intro st fuel d line idv hid hres
    unfold handleChange
    simp only [hid, hres]
  · intro st fuel d line idv hid hfind hres
    unfold handleTask
    simp only [hid, dfGet_dfTouch, hfind, hres]

/-- C2 amended witness at a concrete unresolvable state. -/
theorem notfound_aborts_witness :
    handleChange
      (.obj [("changes", .obj [("1", .obj [("task-ids", .arr [.str "7"])])]),
             ("tasks", .obj [("7", .obj [("kind", .str "weird"),
               ("data", .obj [("something", .str "else")])])])])
      3 []
      (.obj [("msg", .str "new-change"), ("id", .str "1"), ("kind", .str "k")]) =
      .error .notInState :=
  notfound_aborts_amended.1
    (.obj [("changes", .obj [("1", .obj [("task-ids", .arr [.str "7"])])]),
           ("tasks", .obj [("7", .obj [("kind", .str "weird"),
             ("data", .obj [("something", .str "else")])])])])
    3 []
    (.obj [("msg", .str "new-change"), ("id", .str "1"), ("kind", .str "k")])
    (.str "1") (by decide) (by decide)

section CleanupLemmas

theorem fclass_parent_inj : ∀ (c c' : FClass), c.parent = c'.parent → c = c' := by
  intro c c' h
  cases c <;> cases c' <;> first | rfl | exact absurd h (by decide)

theorem dfLookup_cleanupClass_self (c : FClass) (d : FeatureDict) :
    dfLookup (cleanupClass c d) c.parent = cleanupSpec c d := by
  cases c
  case cmd =>
    simp only [cleanupClass, cleanupSpec, FClass.parent]
    rcases h : dfLookup d "cmds" with _ | l
    · simp [h]
    · simp [h, dfLookup_dfSet_self]
  case endpoint =>
    simp only [cleanupClass, cleanupSpec, FClass.parent]
    rcases h : dfLookup d "endpoints" with _ | l
    · simp [h]
    · simp [h, dfLookup_dfSet_self]
  case interface =>
    simp only [cleanupClass, cleanupSpec, FClass.parent]
    rcases h : dfLookup d "interfaces" with _ | l
    · simp [h]
    · simp [h, dfLookup_dfSet_self]
  case ensure =>
    simp only [cleanupClass, cleanupSpec, FClass.parent]
    rw [dfLookup_dfSet_self, dfGet_dfTouch]
  case change =>
    simp only [cleanupClass, cleanupSpec, FClass.parent]
    rw [dfLookup_dfSet_self, dfGet_dfTouch]
  case task =>
    simp only [cleanupClass, cleanupSpec, FClass.parent]
    rcases h : dfLookup d "tasks" with _ | l
    · simp [h]
    · simp [h, dfLookup_dfSet_self]

theorem dfLookup_cleanupClass_ne (c : FClass) (d : FeatureDict) (k : String)
    (h : k ≠ c.parent) : dfLookup (cleanupClass c d) k = dfLookup d k := by
  cases c
  case cmd =>
    simp only [FClass.parent] at h
    simp only [cleanupClass, FClass.parent]
    rcases h' : dfLookup d "cmds" with _ | l
    · simp
    · simp only
      exact dfLookup_dfSet_ne d "cmds" k (pyDedup l) h
  case endpoint =>
    simp only [FClass.parent] at h
    simp only [cleanupClass, FClass.parent]
    rcases h' : dfLookup d "endpoints" with _ | l
    · simp
    · simp only
      exact dfLookup_dfSet_ne d "endpoints" k (pyDedup l) h
  case interface =>
    simp only [FClass.parent] at h
    simp only [cleanupClass, FClass.parent]
    rcases h' : dfLookup d "interfaces" with _ | l
    · simp
    · simp only
      exact dfLookup_dfSet_ne d "interfaces" k (pyDedup l) h
  case ensure =>
    simp only [FClass.parent] at h
    simp only [cleanupClass, FClass.parent]
    rw [dfLookup_dfSet_ne _ _ _ _ h, dfLookup_dfTouch_ne _ _ _ h]
  case change =>
    simp only [FClass.parent] at h
    simp only [cleanupClass, FClass.parent]
    rw [dfLookup_dfSet_ne _ _ _ _ h, dfLookup_dfTouch_ne _ _ _ h]
  case task =>
    simp only [FClass.parent] at h
    simp only [cleanupClass, FClass.parent]
    rcases h' : dfLookup d "tasks" with _ | l
    · simp
    · simp only
      exact dfLookup_dfSet_ne d "tasks" k _ h

theorem cleanupSpec_congr (c : FClass) (d1 d2 : FeatureDict)
    (h : dfLookup d1 c.parent = dfLookup d2 c.parent) :
    cleanupSpec c d1 = cleanupSpec c d2 := by
  cases c <;> simp only [cleanupSpec, FClass.parent, dfGet] at h ⊢ <;> rw [h]

theorem dfLookup_cleanupAll_of_ne (k : String) :
    ∀ (cs : List FClass) (d : FeatureDict), (∀ c' ∈ cs, k ≠ c'.parent) →
      dfLookup (cleanupAll cs d) k = dfLookup d k := by
  intro cs
  induction cs with
  | nil => intro d _; rfl
  | cons c0 rest ih =>
    intro d h
    show dfLookup (cleanupAll rest (cleanupClass c0 d)) k = dfLookup d k
    rw [ih (cleanupClass c0 d) (fun c' h' => h c' (List.mem_cons_of_mem _ h')),
      dfLookup_cleanupClass_ne c0 d k (h c0 (List.mem_cons_self _ _))]

theorem dfLookup_cleanupAll :
    ∀ (cs : List FClass) (d : FeatureDict), cs.Nodup →
      ∀ c ∈ cs, dfLookup (cleanupAll cs d) c.parent = cleanupSpec c d := by
  intro cs
  induction cs with
  | nil => intro d _ c hc; exact absurd hc (by simp)
  | cons c0 rest ih =>
    intro d hnd c hc
    obtain ⟨hnotmem, hndrest⟩ := List.nodup_cons.1 hnd
    show dfLookup (cleanupAll rest (cleanupClass c0 d)) c.parent = cleanupSpec c d
    rcases List.mem_cons.1 hc with rfl | hc'
    · rw [dfLookup_cleanupAll_of_ne c.parent rest (cleanupClass c d)
          (fun c' h' he => hnotmem (fclass_parent_inj c c' he ▸ h')),
        dfLookup_cleanupClass_self]
    · have hne : c.parent ≠ c0.parent := fun he =>
        hnotmem (fclass_parent_inj c c0 he ▸ hc')
      rw [ih (cleanupClass c0 d) hndrest c hc',
        cleanupSpec_congr c (cleanupClass c0 d) d
          (dfLookup_cleanupClass_ne c0 d c.parent hne)]

theorem classesOf_nodup (featureList : List String) : (classesOf featureList).Nodup :=
  List.Nodup.filter _ (by decide : FEATURE_LIST.Nodup)

end CleanupLemmas

/-- C1: finalized feature lists are **not** ordered by first occurrence:
the dedup idiom keeps the last occurrence. On the command log
`x, y, x` the finalized `cmds` list is `[y, x]`, while first-occurrence
dedup of the observed `[x, y, x]` gives `[x, y]`. -/
theorem finalization_first_seen_counterexample :
    getFeatureDictionary
      [.obj [("msg", .str "command-execution"), ("cmd", .str "x")],
       .obj [("msg", .str "command-execution"), ("cmd", .str "y")],
       .obj [("msg", .str "command-execution"), ("cmd", .str "x")]]
      ["cmd"] (.obj []) 1 =
      .ok [("cmds", [Feat.cmd (.str "y"), Feat.cmd (.str "x")])] ∧
    claimFirstSeenDedup
        [Feat.cmd (.str "x"), Feat.cmd (.str "y"), Feat.cmd (.str "x")] =
      [Feat.cmd (.str "x"), Feat.cmd (.str "y")] ∧
    ([Feat.cmd (.str "y"), Feat.cmd (.str "x")] : List Feat) ≠
      [Feat.cmd (.str "x"), Feat.cmd (.str "y")] := by
  refine ⟨by decide, by decide, by decide⟩

/-- C1 amended: when the whole input is consumed, every finalized
feature list contains exactly the structurally-distinct features
observed (task ids stripped first), with duplicates removed keeping
the **last** occurrence: each finalized list is `pyDedup` of the raw
list, and `pyDedup` is duplicate-free, preserves membership, and equals
first-seen dedup of the reversed list, reversed — i.e. entries are
ordered by the position of their last occurrence. -/
theorem finalization_dedup_amended
    (lines : List JVal) (featureList : List String) (st : JVal) (fuel : Nat)
    (raw : FeatureDict)
    (hlen : (classesOf featureList).length = featureList.length)
    (hrun : processLines st fuel (classesOf featureList) lines = .ok raw) :
    getFeatureDictionary lines featureList st fuel =
      .ok (cleanupAll (classesOf featureList) raw) ∧
    (∀ c ∈ classesOf featureList,
      dfLookup (cleanupAll (classesOf featureList) raw) c.parent =
        cleanupSpec c raw) ∧
    (∀ (l : List Feat),
      pyDedup l = (claimFirstSeenDedup l.reverse).reverse ∧
      (pyDedup l).Nodup ∧ (∀ a : Feat, a ∈ pyDedup l ↔ a ∈ l)) := by
  refine ⟨?_, ?_, ?_⟩
  · unfold getFeatureDictionary
    rw [if_neg (by simp [hlen]), hrun]
  · exact dfLookup_cleanupAll (classesOf featureList) raw
      (classesOf_nodup featureList)
  · intro l
    exact ⟨pyDedup_eq_reverse_firstSeen l, pyDedup_nodup l, fun a => mem_pyDedup⟩

/-- C1 amended witness on the concrete `x, y, x` command log. -/
theorem finalization_dedup_witness :
    dfLookup
      (cleanupAll (classesOf ["cmd"])
        [("cmds", [Feat.cmd (.str "x"), Feat.cmd (.str "y"), Feat.cmd (.str "x")])])
      (FClass.cmd.parent) =
      cleanupSpec FClass.cmd
        [("cmds", [Feat.cmd (.str "x"), Feat.cmd (.str "y"), Feat.cmd (.str "x")])] :=
  (finalization_dedup_amended
    [.obj [("msg", .str "command-execution"), ("cmd", .str "x")],
     .obj [("msg", .str "command-execution"), ("cmd", .str "y")],
     .obj [("msg", .str "command-execution"), ("cmd", .str "x")]]
    ["cmd"] (.obj []) 1
    [("cmds", [Feat.cmd (.str "x"), Feat.cmd (.str "y"), Feat.cmd (.str "x")])]
    (by decide) (by decide)).2.1 FClass.cmd (by decide)

section ReplaceLemmas

theorem testMatch_iff (o t : PyDict) :
    testMatch o t = true ↔ testKeyOf o = testKeyOf t := by
  simp only [testMatch, testKeyOf, Bool.and_eq_true, decide_eq_true_eq, Prod.mk.injEq]
  constructor
  · rintro ⟨⟨h1, h2⟩, h3⟩; exact ⟨h2, h1, h3⟩
  · rintro ⟨h2, h1, h3⟩; exact ⟨⟨h1, h2⟩, h3⟩

theorem mem_updFirst {α : Type} (p : α → Bool) (f : α → α) :
    ∀ (l : List α) (x : α), x ∈ updFirst p f l → x ∈ l ∨ ∃ y ∈ l, x = f y := by
  intro l
  induction l with
  | nil => intro x h; exact absurd h (by simp [updFirst])
  | cons a as ih =>
    intro x h
    rw [updFirst] at h
    by_cases hp : p a
    · rw [if_pos hp] at h
      rcases List.mem_cons.1 h with rfl | h'
      · exact Or.inr ⟨a, List.mem_cons_self _ _, rfl⟩
      · exact Or.inl (List.mem_cons_of_mem _ h')
    · rw [if_neg hp] at h
      rcases List.mem_cons.1 h with rfl | h'
      · exact Or.inl (List.mem_cons_self _ _)
      · rcases ih x h' with h'' | ⟨y, hy, he⟩
        · exact Or.inl (List.mem_cons_of_mem _ h'')
        · exact Or.inr ⟨y, List.mem_cons_of_mem _ hy, he⟩

theorem map_testKeyOf_replaceMatching (old : List PyDict) (r : PyDict) :
    (replaceMatching old r).map testKeyOf = old.map testKeyOf := by
  unfold replaceMatching
  induction old with
  | nil => rfl
  | cons t ts ih =>
    rw [updFirst]
    by_cases h : testMatch t r
    · rw [if_pos h, List.map_cons, List.map_cons,
        ((testMatch_iff t r).1 h).symm]
    · rw [if_neg h, List.map_cons, List.map_cons, ih]

theorem replaceMatching_of_nodup (old : List PyDict) (r : PyDict)
    (hO : (old.map testKeyOf).Nodup) :
    replaceMatching old r = old.map (fun t => if testMatch t r then r else t) := by
  unfold replaceMatching
  induction old with
  | nil => rfl
  | cons t ts ih =>
    have hO' := hO
    rw [List.map_cons] at hO'
    obtain ⟨hhead, htail⟩ := List.nodup_cons.1 hO'
    rw [updFirst]
    by_cases h : testMatch t r
    · rw [if_pos h, List.map_cons, if_pos h]
      congr 1
      have hmap : ∀ (l : List PyDict), (∀ u ∈ l, testMatch u r = false) →
          List.map (fun t => if testMatch t r then r else t) l = l := by
        intro l
        induction l with
        | nil => intro _; rfl
        | cons u us ihu =>
          intro hl
          rw [List.map_cons, if_neg (by simp [hl u (List.mem_cons_self _ _)]),
            ihu (fun w hw => hl w (List.mem_cons_of_mem _ hw))]
      symm
      apply hmap
      intro u hu
      cases hcase : testMatch u r with
      | false => rfl
      | true =>
        exfalso
        have hkey : testKeyOf u = testKeyOf t :=
          ((testMatch_iff u r).1 hcase).trans ((testMatch_iff t r).1 h).symm
        exact hhead (List.mem_map.2 ⟨u, hu, hkey⟩)
    · rw [if_neg h, List.map_cons, if_neg h, ih htail]

end ReplaceLemmas

/-- C3: given unique `(suite, taskName, variant)` keys on both sides (a
report invariant), `_replace_tests` rewrites the original test list
pointwise: a test whose key occurs in the rerun becomes the rerun's
record for that key, and a test whose key occurs in no rerun is kept
bit-identical; no test is added or removed. -/
theorem replace_tests_spec (old new : List PyDict)
    (hO : (old.map testKeyOf).Nodup) (hN : (new.map testKeyOf).Nodup)
    (hwfO : ∀ t ∈ old, hasTestKeys t) (hwfN : ∀ r ∈ new, hasTestKeys r) :
    replaceTests old new =
      old.map (fun t => (new.find? (fun r => testMatch t r)).getD t) := by
  induction new generalizing old with
  | nil => simp [replaceTests]
  | cons r rs ih =>
    have hN' := hN
    rw [List.map_cons] at hN'
    obtain ⟨hNhead, hNtail⟩ := List.nodup_cons.1 hN'
    have hO' : ((replaceMatching old r).map testKeyOf).Nodup := by
      rw [map_testKeyOf_replaceMatching]; exact hO
    have hwfO' : ∀ t ∈ replaceMatching old r, hasTestKeys t := by
      intro t ht
      rcases mem_updFirst _ _ old t ht with h | ⟨y, hy, he⟩
      · exact hwfO t h
      · rw [he]; exact hwfN r (List.mem_cons_self _ _)
    show replaceTests (replaceMatching old r) rs = _
    rw [ih (replaceMatching old r) hO' hNtail hwfO'
        (fun u hu => hwfN u (List.mem_cons_of_mem _ hu)),
      replaceMatching_of_nodup old r hO, List.map_map]
    apply List.map_congr_left
    intro t ht
    simp only [Function.comp]
    by_cases h : testMatch t r
    · rw [if_pos h]
      have hnone : rs.find? (fun u => testMatch r u) = none := by
        rw [List.find?_eq_none]
        intro u hu hP
        exact hNhead (List.mem_map.2 ⟨u, hu, ((testMatch_iff r u).1 hP).symm⟩)
      rw [hnone, List.find?_cons_of_pos _ h]
      rfl
    · rw [if_neg h, List.find?_cons_of_neg _ (by simp [h])]

/-- C3 witness: a two-test original with a one-test rerun. -/
theorem replace_tests_spec_witness :
    replaceTests
      [[("suite", JVal.str "s"), ("task_name", JVal.str "t1"),
        ("variant", JVal.str ""), ("cmds", JVal.arr [JVal.str "old"])],
       [("suite", JVal.str "s"), ("task_name", JVal.str "t2"),
        ("variant", JVal.str ""), ("cmds", JVal.arr [JVal.str "keep"])]]
      [[("suite", JVal.str "s"), ("task_name", JVal.str "t1"),
        ("variant", JVal.str ""), ("cmds", JVal.arr [JVal.str "new"])]] =
      [[("suite", JVal.str "s"), ("task_name", JVal.str "t1"),
        ("variant", JVal.str ""), ("cmds", JVal.arr [JVal.str "old"])],
       [("suite", JVal.str "s"), ("task_name", JVal.str "t2"),
        ("variant", JVal.str ""), ("cmds", JVal.arr [JVal.str "keep"])]].map
        (fun t =>
          ([[("suite", JVal.str "s"), ("task_name", JVal.str "t1"),
             ("variant", JVal.str ""), ("cmds", JVal.arr [JVal.str "new"])]].find?
            (fun r => testMatch t r)).getD t) :=
  replace_tests_spec _ _ (by decide) (by decide)
    (by intro t ht; fin_cases ht <;> exact ⟨by decide, by decide, by decide⟩)
    (by intro t ht; fin_cases ht; exact ⟨by decide, by decide, by decide⟩)

section PlanLemmas

theorem planStep_error (originals : List String) (acc : List (String × String))
    (r : String)
    (h : (originals.filter
        (fun x => strStartsWith x (nameWithoutRunNumber r))).length ≠ 1) :
    planStep originals acc r = .error .runtimeError := by
  unfold planStep
  rcases hf : originals.filter (fun x => strStartsWith x (nameWithoutRunNumber r)) with
    _ | ⟨o, _ | ⟨o2, rest⟩⟩
  · rfl
  · exact absurd (by rw [hf]; rfl) h
  · rfl

theorem plan_fold_error (originals : List String) :
    ∀ (reruns : List String) (acc : List (String × String)),
      (∃ r ∈ reruns, (originals.filter
          (fun x => strStartsWith x (nameWithoutRunNumber r))).length ≠ 1) →
      reruns.foldlM (planStep originals) acc = .error .runtimeError := by
  intro reruns
  induction reruns with
  | nil => intro acc h; exact absurd h (by simp)
  | cons x xs ih =>
    intro acc h
    rw [List.foldlM_cons]
    by_cases hx : (originals.filter
        (fun y => strStartsWith y (nameWithoutRunNumber x))).length ≠ 1
    · rw [planStep_error originals acc x hx]
      rfl
    · have hx1 : (originals.filter
          (fun y => strStartsWith y (nameWithoutRunNumber x))).length = 1 := by
        by_contra hc
        exact hx hc
      obtain ⟨r, hr, hrlen⟩ := h
      have hr' : r ∈ xs := by
        rcases List.mem_cons.1 hr with rfl | hmem
        · exact absurd hx1 hrlen
        · exact hmem
      rcases hf : originals.filter (fun y => strStartsWith y (nameWithoutRunNumber x)) with
        _ | ⟨o, rest⟩
      · rw [hf] at hx1; exact absurd hx1 (by simp)
      · rcases rest with _ | ⟨o2, rest'⟩
        · show (planStep originals acc x >>= fun acc' =>
              xs.foldlM (planStep originals) acc') = .error .runtimeError
          rw [show planStep originals acc x = .ok (acc ++ [(o, x)]) from by
              unfold planStep; rw [hf]]
          show xs.foldlM (planStep originals) (acc ++ [(o, x)]) = .error .runtimeError
          exact ih (acc ++ [(o, x)]) ⟨r, hr', hrlen⟩
        · rw [hf] at hx1; exact absurd hx1 (by simp)

end PlanLemmas

/-- C6: a rerun file whose stripped name is a prefix of **zero**
original files is not a fatal error: a lone `foo_2.json` with no
`foo_1.json` is pruned from the rerun list and silently copied through
to the output (as `foo.json`), the operation succeeding. -/
theorem orphan_rerun_not_fatal_counterexample :
    replaceOldRunsPlan ["foo_2.json"] = .ok ([], ["foo_2.json"]) ∧
    replaceOldRunsPlan ["foo_2.json"] ≠ .error .runtimeError := by
  refine ⟨by decide, by decide⟩

/-- C6 amended: for every rerun that **survives** the orphan pruning of
`_get_original_and_rerun_list`, a candidate count different from one
(which covers every ambiguous multi-match, and the zero-match cases
that prefix aliasing lets through the pruning) makes `replace_old_runs`
fail with the fatal `RuntimeError`; a rerun with no matching original
is instead normally pruned and copied through, not an error. -/
theorem rerun_ambiguous_match_amended (filenames : List String)
    (originals reruns : List String) (r : String)
    (hsplit : getOriginalAndRerunList filenames = .ok (originals, reruns))
    (hr : r ∈ reruns)
    (hlen : (originals.filter
        (fun x => strStartsWith x (nameWithoutRunNumber r))).length ≠ 1) :
    replaceOldRunsPlan filenames = .error .runtimeError := by
  unfold replaceOldRunsPlan
  rw [hsplit]
  show (match List.foldlM (planStep originals) [] reruns with
        | Except.ok pairs =>
          Except.ok (pairs,
            List.filter (fun f => !originals.contains f && !reruns.contains f) filenames)
        | Except.error e => Except.error e) = Except.error PyErr.runtimeError
  rw [plan_fold_error originals reruns [] ⟨r, hr, hlen⟩]

/-- C6 amended witness: the rerun `foo_2.json`'s stripped name `foo` is
a prefix of both `foo_1.json` and `foo-bar_1.json`. -/
theorem rerun_ambiguous_match_witness :
    replaceOldRunsPlan
      ["foo_1.json", "foo-bar_1.json", "foo_2.json", "foo-bar_2.json"] =
      .error .runtimeError :=
  rerun_ambiguous_match_amended
    ["foo_1.json", "foo-bar_1.json", "foo_2.json", "foo-bar_2.json"]
    ["foo_1.json", "foo-bar_1.json"] ["foo_2.json", "foo-bar_2.json"]
    "foo_2.json" (by decide) (by decide) (by decide)

/-- C4: a test with **zero** features can be reported as a duplicate:
`check_duplicate` tests the truthiness of the feature-key dict, not the
presence of a feature. A test whose only feature key is `cmds: []` is
reported once any other test carries some command, even though it has
no feature at all. -/
theorem empty_feature_list_duplicate_counterexample :
    dupQ [QTest.mk "s" "a" "" true [("cmds", ([] : List String))],
          QTest.mk "s" "b" "" true [("cmds", ["x"])]] false =
      [PyTaskId.variant "s" "a" ""] ∧
    (∀ kv ∈ (QTest.mk "s" "a" "" true
        [("cmds", ([] : List String))]).feats, kv.2 = []) := by
  refine ⟨by decide, by decide⟩

/-- C4 amended: the duplicate query reports `t` exactly when (1) the
`minus` of `t`'s feature dict against the consolidation of the report
(all variants of `t`'s task excluded) is empty and (2) `t` carries at
least one feature-kind **key** — even one holding an empty list; a test
with no feature-kind keys is never reported. -/
theorem checkDuplicate_eq_some_iff {α : Type} [DecidableEq α] (t : QTest α)
    (tests1 : List (QTest α)) (tid : PyTaskId) :
    checkDuplicate t tests1 = some tid ↔
      toCheck t ≠ [] ∧
      minusD (toCheck t)
        (consolidate tests1 none (some [.bare t.suite t.task_name])) = [] ∧
      tid = .variant t.suite t.task_name t.variant := by
  unfold checkDuplicate
  show (if toCheck t ≠ [] ∧
        minusD (toCheck t)
          (consolidate tests1 none (some [.bare t.suite t.task_name])) = [] then
      some (PyTaskId.variant t.suite t.task_name t.variant) else none) = some tid ↔ _
  by_cases hcond : toCheck t ≠ [] ∧
      minusD (toCheck t)
        (consolidate tests1 none (some [.bare t.suite t.task_name])) = []
  · rw [if_pos hcond]
    constructor
    · intro h
      exact ⟨hcond.1, hcond.2, (Option.some.inj h).symm⟩
    · rintro ⟨_, _, h3⟩
      rw [h3]
  · rw [if_neg hcond]
    constructor
    · intro h
      exact absurd h (by simp)
    · rintro ⟨h1, h2, _⟩
      exact absurd ⟨h1, h2⟩ hcond

theorem dup_reports_iff {α : Type} [DecidableEq α] (tests : List (QTest α))
    (rf : Bool) (tid : PyTaskId) :
    tid ∈ dupQ tests rf ↔
      ∃ t ∈ (if rf then tests.filter (fun u => u.success) else tests),
        toCheck t ≠ [] ∧
        minusD (toCheck t)
          (consolidate (if rf then tests.filter (fun u => u.success) else tests)
            none (some [.bare t.suite t.task_name])) = [] ∧
        tid = .variant t.suite t.task_name t.variant := by
  unfold dupQ
  show tid ∈ (if rf then tests.filter (fun u => u.success) else tests).filterMap
      (fun t => checkDuplicate t
        (if rf then tests.filter (fun u => u.success) else tests)) ↔ _
  rw [List.mem_filterMap]
  constructor
  · rintro ⟨t, ht, hsome⟩
    exact ⟨t, ht, (checkDuplicate_eq_some_iff t _ tid).1 hsome⟩
  · rintro ⟨t, ht, h⟩
    exact ⟨t, ht, (checkDuplicate_eq_some_iff t _ tid).2 h⟩

/-- C4 amended witness: the empty-`cmds` test of the counterexample
satisfies exactly the amended reporting condition. -/
theorem dup_reports_iff_witness :
    PyTaskId.variant "s" "a" "" ∈
      dupQ [QTest.mk "s" "a" "" true [("cmds", ([] : List String))],
            QTest.mk "s" "b" "" true [("cmds", ["x"])]] false :=
  (dup_reports_iff
      [QTest.mk "s" "a" "" true [("cmds", ([] : List String))],
       QTest.mk "s" "b" "" true [("cmds", ["x"])]] false
      (PyTaskId.variant "s" "a" "")).2
    ⟨QTest.mk "s" "a" "" true [("cmds", ([] : List String))],
     by decide, by decide, by decide, by decide⟩

/-- C8: `get_single_json` and `get_systems` with an explicit non-empty
subset do **not** bypass a previously cached full list: both answer
from the cache when it is populated, returning the stale cached record
rather than the backend's. -/
theorem subset_queries_cache_counterexample :
    (getSingleJson demoBackend demoCache "t" "s1").1 = SysDoc.mk "s1" "cached" ∧
    (getSystems demoBackend demoCache "t" (some ["s1"])).1 =
      [SysDoc.mk "s1" "cached"] ∧
    demoBackend.single "t" "s1" = SysDoc.mk "s1" "fresh" ∧
    demoBackend.systemsOf "t" (some ["s1"]) = [SysDoc.mk "s1" "fresh"] ∧
    SysDoc.mk "s1" "cached" ≠ SysDoc.mk "s1" "fresh" := by
  refine ⟨by decide, by decide, rfl, rfl, by decide⟩

/-- C8 amended: `get_single_json`, and `get_systems` with an explicit
non-empty subset, never write the cache (the cache state seen by later
calls is unchanged); on a cache miss they go straight to the backend,
but when a full-scan list is already cached they answer from it. -/
theorem subset_queries_cache_amended (b : Backend) (st : RetCache)
    (ts sys : String) (systems : Option (List String)) :
    (getSingleJson b st ts sys).2 = st ∧
    (isFalsySystems systems = false → (getSystems b st ts systems).2 = st) ∧
    (cacheSystems st ts = none →
      (getSingleJson b st ts sys).1 = b.single ts sys ∧
      (getSystems b st ts systems).1 = b.systemsOf ts systems) := by
  refine ⟨?_, ?_, ?_⟩
  · unfold getSingleJson
    rcases cacheSystems st ts with _ | lst
    · rfl
    · show (match lst.find? (fun (d : SysDoc) => d.system == sys) with
            | some d => (d, st)
            | none => (b.single ts sys, st)).2 = st
      rcases lst.find? (fun (d : SysDoc) => d.system == sys) with _ | d
      · rfl
      · rfl
  · intro hs
    unfold getSystems
    rcases cacheSystems st ts with _ | lst
    · show (if !isFalsySystems systems then (b.systemsOf ts systems, st)
            else (b.systemsOf ts systems,
              cacheSetSystems st ts (b.systemsOf ts systems))).2 = st
      rw [hs]
      rfl
    · show (if isFalsySystems systems then (lst, st)
            else (lst.filter (fun (d : SysDoc) => d.system ∈ systems.getD []), st)).2 = st
      rw [hs]
      rfl
  · intro hnone
    constructor
    · unfold getSingleJson
      rw [hnone]
    · unfold getSystems
      rw [hnone]
      show (if !isFalsySystems systems then (b.systemsOf ts systems, st)
            else (b.systemsOf ts systems,
              cacheSetSystems st ts (b.systemsOf ts systems))).1 =
          b.systemsOf ts systems
      by_cases hs : isFalsySystems systems
      · rw [hs]
        rfl
      · rw [Bool.eq_false_iff.2 hs]
        rfl

/-- C8 amended witness: the subset queries leave the demo cache
unchanged, and on an empty cache `get_single_json` asks the backend. -/
theorem subset_queries_cache_witness :
    (getSingleJson demoBackend demoCache "t" "s1").2 = demoCache ∧
    (getSystems demoBackend demoCache "t" (some ["s1"])).2 = demoCache ∧
    (getSingleJson demoBackend [] "t" "s1").1 = demoBackend.single "t" "s1" :=
  ⟨(subset_queries_cache_amended demoBackend demoCache "t" "s1" (some ["s1"])).1,
   (subset_queries_cache_amended demoBackend demoCache "t" "s1" (some ["s1"])).2.1
     (by decide),
   ((subset_queries_cache_amended demoBackend [] "t" "s1" (some ["s1"])).2.2
     (by decide)).1⟩

/-- C9: `TaskIdVariant(s,t,v)` equals `TaskId(s,t)` in both directions,
the two hashes are computed over different tuples (hence differ), and
equality over the two classes is not transitive. -/
theorem taskid_eq_hash_contract (s t v v1 v2 : String) :
    pyTaskEq (.variant s t v) (.bare s t) = true ∧
    pyTaskEq (.bare s t) (.variant s t v) = true ∧
    pyTaskHashKey (.variant s t v) = [s, t, v] ∧
    pyTaskHashKey (.bare s t) = [s, t] ∧
    pyTaskHashKey (.variant s t v) ≠ pyTaskHashKey (.bare s t) ∧
    (v1 ≠ v2 →
      pyTaskEq (.variant s t v1) (.variant s t v2) = false ∧
      pyTaskEq (.variant s t v1) (.bare s t) = true ∧
      pyTaskEq (.variant s t v2) (.bare s t) = true) := by
  refine ⟨by simp [pyTaskEq], by simp [pyTaskEq], rfl, rfl, by simp [pyTaskHashKey], ?_⟩
  intro hne
  refine ⟨?_, by simp [pyTaskEq], by simp [pyTaskEq]⟩
  simp [pyTaskEq, hne]

/-- C9 witness at concrete values. -/
theorem taskid_eq_hash_contract_witness :
    pyTaskEq (.variant "s" "t" "x") (.variant "s" "t" "y") = false ∧
    pyTaskEq (.variant "s" "t" "x") (.bare "s" "t") = true ∧
    pyTaskHashKey (.variant "s" "t" "x") ≠ pyTaskHashKey (.bare "s" "t") :=
  ⟨((taskid_eq_hash_contract "s" "t" "x" "x" "y").2.2.2.2.2 (by decide)).1,
   (taskid_eq_hash_contract "s" "t" "x" "x" "y").1,
   (taskid_eq_hash_contract "s" "t" "x" "x" "y").2.2.2.2.1⟩

/-- C5 counterexample: when a kind is absent from `b` and `a`'s list for
it is empty, `minus(a, b)` keeps the kind with an empty list — the
entry `("cmds", [])` is present in the result. -/
theorem minus_keeps_empty_list_counterexample :
    minusD (α := String) [("cmds", [])] [] = [("cmds", [])] ∧
    ("cmds", ([] : List String)) ∈ minusD (α := String) [("cmds", [])] [] := by
  constructor <;> decide

/-- C5 amended: a key of `minus(a, b)` that is also a key of `b` maps to
a non-empty list; a key of `minus(a, b)` absent from `b` is copied
verbatim from `a` (possibly with an empty list). -/
theorem minus_key_shapes {α : Type} [DecidableEq α]
    (a b : List (String × List α)) (k : String) (v : List α)
    (hmem : (k, v) ∈ minusD a b) :
    (b.lookup k = none → (k, v) ∈ a) ∧
    (∀ bl, b.lookup k = some bl → v ≠ []) := by
  rcases minusD_fold_mem b a [] hmem with h | h
  · exact absurd h (by simp)
  · exact h

/-- C5 amended witness at a concrete input. -/
theorem minus_key_shapes_witness :
    ((List.lookup "cmds" [("cmds", ["x"])] = none →
        ("cmds", ["a"]) ∈ [("cmds", ["a", "x"])]) ∧
      (∀ bl, List.lookup "cmds" [("cmds", ["x"])] = some bl → ["a"] ≠ [])) :=
  minus_key_shapes [("cmds", ["a", "x"])] [("cmds", ["x"])] "cmds" ["a"] (by decide)
